import Mathlib

/-!
Verification of the Digilent HDMI DRM driver
(drivers/gpu/drm/xlnx/digilent_hdmi_*.c) against its natural-language
specification.  The C code is shallowly embedded: pure computations become
Lean functions, stateful callbacks become explicit state-passing functions,
`size_t` arithmetic is `Nat` taken modulo 2^64 where overflow matters, and
call sequences with hardware side effects are modelled as explicit event
traces.
-/

namespace DigilentHdmi

/-- Modulus of `size_t` / `dma_addr_t` arithmetic on the 64-bit target. -/
def SIZE_MOD : Nat := 2 ^ 64

/-- Modulus of 32-bit `unsigned int` arithmetic, in which the
`crtc_x * cpp[0] + crtc_y * pitches[0]` and `crtc_w * cpp[0]` operands of
the descriptor builder are evaluated before widening to `size_t`
(`crtc_x`/`crtc_y` are `int32_t`, `crtc_w` is `uint32_t`, `cpp[0]` is a
promoted `u8`, `pitches[0]` is `unsigned int`). -/
def U32_MOD : Nat := 2 ^ 32

/-! ## Descriptor builder (digilent_hdmi_crtc.c, digilent_hdmi_vdma_prep_interleaved_desc)

The relevant inputs are the framebuffer layout (`obj->paddr`,
`fb->pitches[0]`, `fb->format->cpp[0]`) and the plane state geometry
(`crtc_x`, `crtc_y`, `crtc_w`, `crtc_h`).  The function fills the single
reusable `dma_interleaved_template` and hands it to the dmaengine. -/

inductive DmaDir where
  | DMA_MEM_TO_DEV
  | DMA_DEV_TO_MEM
  deriving DecidableEq, Repr

/-- The `dma_interleaved_template` fields written by the driver, with its
single `data_chunk` (`sgl[0]`) inlined. -/
structure DmaInterleavedTemplate where
  dir : DmaDir
  src_start : Nat
  frame_size : Nat
  numf : Nat
  src_sgl : Bool
  src_inc : Bool
  dst_inc : Bool
  dst_sgl : Bool
  sgl0_size : Nat
  sgl0_icg : Nat
  deriving DecidableEq, Repr

/-- Framebuffer data consumed by the builder: the CMA object physical base
address, `pitches[0]` (stride in bytes) and `format->cpp[0]` (bytes per
pixel). -/
structure Framebuffer where
  paddr : Nat
  pitch : Nat
  cpp : Nat
  deriving DecidableEq, Repr

/-- The plane-state geometry consumed by the builder. -/
structure PlaneGeometry where
  crtc_x : Nat
  crtc_y : Nat
  crtc_w : Nat
  crtc_h : Nat
  deriving DecidableEq, Repr

/-- Embedding of `digilent_hdmi_vdma_prep_interleaved_desc`: the pure
computation filling the DMA template.  The right-hand sides of `offset`
and `hw_row_size` are evaluated in 32-bit `unsigned int` arithmetic
(wrapping modulo 2^32) and then widened to the `size_t` locals, while
`src_start = obj->paddr + offset` and
`sgl[0].icg = fb->pitches[0] - hw_row_size` are 64-bit unsigned
operations, wrapping modulo 2^64.  The function has no failure path of
its own: it always produces a template (the only possible `NULL` comes
from the external `dmaengine_prep_interleaved_dma`). -/
def digilent_hdmi_vdma_prep_interleaved_desc (fb : Framebuffer)
    (g : PlaneGeometry) : DmaInterleavedTemplate :=
  let offset : Nat := (g.crtc_x * fb.cpp + g.crtc_y * fb.pitch) % U32_MOD
  let hw_row_size : Nat := (g.crtc_w * fb.cpp) % U32_MOD
  { dir := DmaDir.DMA_MEM_TO_DEV
    src_start := (fb.paddr + offset) % SIZE_MOD
    frame_size := 1
    numf := g.crtc_h
    src_sgl := true
    src_inc := true
    dst_inc := false
    dst_sgl := false
    sgl0_size := hw_row_size
    sgl0_icg := (fb.pitch + (SIZE_MOD - hw_row_size)) % SIZE_MOD }

/-! ## Plane atomic update (digilent_hdmi_plane_atomic_update)

The calls into the dmaengine are recorded as an event trace. -/

inductive DmaCall where
  | terminate
  | submit
  | issuePending
  deriving DecidableEq, Repr

/-- The parts of `plane->state` that `digilent_hdmi_plane_atomic_update`
reads: whether a CRTC is attached, and the bound framebuffer (if any)
together with the scanout geometry. -/
structure PlaneState where
  hasCrtc : Bool
  fb : Option Framebuffer
  geom : PlaneGeometry
  deriving DecidableEq, Repr

/-- Embedding of `digilent_hdmi_plane_atomic_update` as the trace of
dmaengine calls it performs.  `prepOk` models whether the external
`dmaengine_prep_interleaved_dma` returns a non-NULL descriptor.  With no
CRTC or no framebuffer the function returns immediately; otherwise it
terminates any in-flight transfer, builds the descriptor, and either
abandons the update (prep failed) or submits and issues it. -/
def digilent_hdmi_plane_atomic_update (st : PlaneState) (prepOk : Bool) :
    List DmaCall :=
  if st.hasCrtc = false ∨ st.fb = none then
    []
  else if prepOk then
    [DmaCall.terminate, DmaCall.submit, DmaCall.issuePending]
  else
    [DmaCall.terminate]

/-! ## CRTC enable settle delay (digilent_hdmi_crtc_enable)

`vrefresh = (adjusted_mode->clock * 1000) / (adjusted_mode->vtotal *
adjusted_mode->htotal)` followed by `msleep(1 * 1000 / vrefresh)`, both in
truncating integer arithmetic. -/

/-- The `drm_display_mode` fields the driver reads. `clock` is in kHz;
`flags` is the mode-flag bitmask. -/
structure DisplayMode where
  clock : Nat
  hdisplay : Nat
  vdisplay : Nat
  htotal : Nat
  vtotal : Nat
  flags : Nat
  deriving DecidableEq, Repr

/-- The refresh rate computed in `digilent_hdmi_crtc_enable`:
`(clock * 1000) / (vtotal * htotal)`, truncating. -/
def crtc_enable_vrefresh (m : DisplayMode) : Nat :=
  m.clock * 1000 / (m.vtotal * m.htotal)

/-- The argument of the `msleep` call in `digilent_hdmi_crtc_enable`:
`1 * 1000 / vrefresh`, truncating integer division. -/
def crtc_enable_settle_ms (m : DisplayMode) : Nat :=
  1 * 1000 / crtc_enable_vrefresh m

/-! ## Vblank event handoff (digilent_hdmi_crtc_atomic_begin)

`crtc->state->event` is the pending-slot; signalling an event is recorded
in the returned list.  Events are identified by opaque tokens (`Nat`). -/

/-- Embedding of `digilent_hdmi_crtc_atomic_begin`: takes the pending
event slot, returns the new slot value and the list of events signalled
by this call (via `drm_crtc_send_vblank_event` under `event_lock`). -/
def digilent_hdmi_crtc_atomic_begin (pending : Option Nat) :
    Option Nat × List Nat :=
  match pending with
  | some e => (none, [e])
  | none => (none, [])

/-! ## Encoder clock state machine (digilent_hdmi_encoder.c)

`clk_enabled` guards the `clk_prepare_enable` / `clk_disable_unprepare`
calls; the number of each hardware call performed so far is carried in the
state so that call counts are observable. -/

structure ClockState where
  clk_enabled : Bool
  prepareEnableCalls : Nat
  disableUnprepareCalls : Nat
  deriving DecidableEq, Repr

/-- The state at probe time: `digilent_hdmi_private` is `devm_kzalloc`ed,
so `clk_enabled` starts `false` and no hardware calls have been made. -/
def initialClockState : ClockState :=
  { clk_enabled := false, prepareEnableCalls := 0, disableUnprepareCalls := 0 }

/-- Embedding of `digilent_hdmi_encoder_enable`: if the clock is not
enabled, call `clk_prepare_enable` and set the flag; otherwise do
nothing. -/
def digilent_hdmi_encoder_enable (s : ClockState) : ClockState :=
  if s.clk_enabled then s
  else { clk_enabled := true
         prepareEnableCalls := s.prepareEnableCalls + 1
         disableUnprepareCalls := s.disableUnprepareCalls }

/-- Embedding of `digilent_hdmi_encoder_disable`: if the clock is
enabled, call `clk_disable_unprepare` and clear the flag; otherwise do
nothing. -/
def digilent_hdmi_encoder_disable (s : ClockState) : ClockState :=
  if s.clk_enabled then
    { clk_enabled := false
      prepareEnableCalls := s.prepareEnableCalls
      disableUnprepareCalls := s.disableUnprepareCalls + 1 }
  else s

/-! ## Connector (digilent_hdmi_connector.c) -/

/-- Per-device limits parsed at probe time (`fmax`, `hmax`, `vmax`,
`hpref`, `vpref` fields of `digilent_hdmi_private`). -/
structure HdmiLimits where
  fmax : Nat
  hmax : Nat
  vmax : Nat
  hpref : Nat
  vpref : Nat
  deriving DecidableEq, Repr

def DRM_MODE_FLAG_INTERLACE : Nat := 16

def DRM_MODE_FLAG_DBLCLK : Nat := 4096

/-- `0x1f << 14`: the mask covering every stereo/3D layout flag. -/
def DRM_MODE_FLAG_3D_MASK : Nat := 507904

inductive ModeStatus where
  | MODE_OK
  | MODE_BAD
  deriving DecidableEq, Repr

/-- Embedding of `digilent_hdmi_connector_mode_valid`: the mode pointer
handed in by the probe helper is always a valid mode, so the embedding
takes the mode by value and keeps the remaining conjuncts of the `if`. -/
def digilent_hdmi_connector_mode_valid (priv : HdmiLimits)
    (mode : DisplayMode) : ModeStatus :=
  if mode.flags &&& (DRM_MODE_FLAG_INTERLACE ||| DRM_MODE_FLAG_DBLCLK |||
        DRM_MODE_FLAG_3D_MASK) = 0
      ∧ mode.clock ≤ priv.fmax
      ∧ mode.hdisplay ≤ priv.hmax
      ∧ mode.vdisplay ≤ priv.vmax then
    ModeStatus.MODE_OK
  else
    ModeStatus.MODE_BAD

/-- An entry of the connector's probed-mode list as the fallback path
produces it: a resolution plus the preferred mark. -/
structure FallbackMode where
  hdisplay : Nat
  vdisplay : Nat
  preferred : Bool
  deriving DecidableEq, Repr

/-- Modelled from the spec: the resolution table that the external DRM
helper `drm_add_modes_noedid` (not part of this repository's sources under
verification) draws its fallback modes from; the spec only requires a
fixed set of standard modes filtered by the declared resolution ceiling,
one entry per resolution. -/
def noedidModeTable : List (Nat × Nat) :=
  [(640, 480), (800, 600), (1024, 768), (1152, 864), (1280, 720),
   (1280, 1024), (1600, 1200), (1920, 1080)]

/-- Modelled from the spec: `drm_add_modes_noedid` (external DRM helper)
synthesizes the fallback mode set derived from the `(max-h, max-v)`
resolution ceiling; no entry is marked preferred by this step. -/
def drm_add_modes_noedid (hmax vmax : Nat) : List FallbackMode :=
  (noedidModeTable.filter fun p => p.1 ≤ hmax && p.2 ≤ vmax).map
    fun p => { hdisplay := p.1, vdisplay := p.2, preferred := false }

/-- Modelled from the spec: `drm_set_preferred_mode` (external DRM helper)
marks the entry of the probed list matching `(hpref, vpref)` as
preferred. -/
def drm_set_preferred_mode (modes : List FallbackMode) (hpref vpref : Nat) :
    List FallbackMode :=
  modes.map fun m =>
    if m.hdisplay = hpref ∧ m.vdisplay = vpref then
      { m with preferred := true }
    else m

/-- Embedding of `digilent_hdmi_connector_get_modes`.  `hasI2c` is whether
a capability-discovery channel (`private->i2c_bus`) is configured;
`edidModes` models the outcome of the external EDID read (`none` = read
failure).  The claim under verification only concerns the fallback (no
channel) branch. -/
def digilent_hdmi_connector_get_modes (hasI2c : Bool)
    (edidModes : Option (List FallbackMode)) (limits : HdmiLimits) :
    List FallbackMode :=
  if hasI2c then
    match edidModes with
    | none => []
    | some ms => ms
  else
    drm_set_preferred_mode (drm_add_modes_noedid limits.hmax limits.vmax)
      limits.hpref limits.vpref

/-! ## Probe-time resource acquisition (digilent_hdmi_parse_of) -/

def EPROBE_DEFER : Int := -517

deriving instance DecidableEq for Except

/-- The devicetree / hardware environment `digilent_hdmi_parse_of` runs
against: whether each acquisition step succeeds, and the optional numeric
limit properties. -/
structure OfConfig where
  clkErr : Option Int
  dmaErr : Option Int
  vtcProp : Bool
  vtcFound : Bool
  i2cProp : Bool
  i2cFound : Bool
  fmaxProp : Option Nat
  hmaxProp : Option Nat
  vmaxProp : Option Nat
  hprefProp : Option Nat
  vprefProp : Option Nat
  deriving DecidableEq, Repr

/-- Release calls that `digilent_hdmi_parse_of`'s unwind labels can
perform (the pixel clock is `devm`-managed and has no explicit release). -/
inductive RelEvent where
  | putVtcBridge
  | releaseDma
  deriving DecidableEq, Repr

/-- Successful outcome of `digilent_hdmi_parse_of`: which optional handles
ended up acquired, and the parsed limits. -/
structure ParseSuccess where
  vtcAcquired : Bool
  i2cAcquired : Bool
  limits : HdmiLimits
  deriving DecidableEq, Repr

/-- Outcome of `digilent_hdmi_parse_of`: the returned value and the
release calls performed by its error-unwind labels, in order. -/
structure ParseResult where
  result : Except Int ParseSuccess
  releases : List RelEvent
  deriving DecidableEq, Repr

def DIGILENT_ENC_MAX_FREQ : Nat := 150000

def DIGILENT_ENC_MAX_H : Nat := 1920

def DIGILENT_ENC_MAX_V : Nat := 1080

def DIGILENT_ENC_PREF_H : Nat := 1280

def DIGILENT_ENC_PREF_V : Nat := 720

/-- Embedding of `digilent_hdmi_parse_of`.  The acquisition order is pixel
clock, DMA channel, VTC bridge (optional: a missing `vtc` property only
logs), EDID I2C adapter (optional, same policy), then the five `u32`
properties with built-in defaults.  A configured-but-unresolvable bridge
or adapter returns `-EPROBE_DEFER` and unwinds through the `goto` labels,
which release only what was acquired, in reverse order. -/
def digilent_hdmi_parse_of (cfg : OfConfig) : ParseResult :=
  match cfg.clkErr with
  | some e => { result := Except.error e, releases := [] }
  | none =>
  match cfg.dmaErr with
  | some e => { result := Except.error e, releases := [] }
  | none =>
  if cfg.vtcProp && !cfg.vtcFound then
    { result := Except.error EPROBE_DEFER, releases := [RelEvent.releaseDma] }
  else if cfg.i2cProp && !cfg.i2cFound then
    { result := Except.error EPROBE_DEFER
      releases :=
        (if cfg.vtcProp then [RelEvent.putVtcBridge] else []) ++
        [RelEvent.releaseDma] }
  else
    { result := Except.ok
        { vtcAcquired := cfg.vtcProp
          i2cAcquired := cfg.i2cProp
          limits :=
            { fmax := cfg.fmaxProp.getD DIGILENT_ENC_MAX_FREQ
              hmax := cfg.hmaxProp.getD DIGILENT_ENC_MAX_H
              vmax := cfg.vmaxProp.getD DIGILENT_ENC_MAX_V
              hpref := cfg.hprefProp.getD DIGILENT_ENC_PREF_H
              vpref := cfg.vprefProp.getD DIGILENT_ENC_PREF_V } }
      releases := [] }

/-! ## Device remove (digilent_hdmi_platform_remove) -/

/-- The externally visible steps `digilent_hdmi_platform_remove` and
`digilent_hdmi_of_release` perform, as trace events. -/
inductive RemoveEvent where
  | putI2cAdapter
  | putVtcBridge
  | releaseDmaChannel
  | atomicShutdown
  | putDrmDev
  deriving DecidableEq, Repr

/-- Embedding of `digilent_hdmi_of_release`: put the I2C adapter if
acquired, put the VTC bridge if acquired, then release the DMA channel. -/
def digilent_hdmi_of_release (hasI2c hasVtc : Bool) : List RemoveEvent :=
  (if hasI2c then [RemoveEvent.putI2cAdapter] else []) ++
  (if hasVtc then [RemoveEvent.putVtcBridge] else []) ++
  [RemoveEvent.releaseDmaChannel]

/-- Embedding of `digilent_hdmi_platform_remove` as its step trace: it
calls `digilent_hdmi_of_release` first, then
`drm_atomic_helper_shutdown`, then `drm_put_dev`. -/
def digilent_hdmi_platform_remove (hasI2c hasVtc : Bool) : List RemoveEvent :=
  digilent_hdmi_of_release hasI2c hasVtc ++
  [RemoveEvent.atomicShutdown, RemoveEvent.putDrmDev]

/-! ## Theorems -/

/-- Claim C5: `digilent_hdmi_connector_mode_valid` returns `MODE_OK` iff no
interlace, double-clock or 3D flag is set and pixel clock, horizontal
active, and vertical active are each at or below their respective ceiling;
any mode with one of those flags set is rejected regardless of size or
clock, and boundary values exactly at each ceiling are accepted. -/
theorem connector_mode_valid_spec (priv : HdmiLimits) (mode : DisplayMode) :
    digilent_hdmi_connector_mode_valid priv mode = ModeStatus.MODE_OK ↔
      mode.flags &&& (DRM_MODE_FLAG_INTERLACE ||| DRM_MODE_FLAG_DBLCLK |||
          DRM_MODE_FLAG_3D_MASK) = 0
        ∧ mode.clock ≤ priv.fmax
        ∧ mode.hdisplay ≤ priv.hmax
        ∧ mode.vdisplay ≤ priv.vmax := by
  unfold digilent_hdmi_connector_mode_valid
  split
  · rename_i h
    simpa using h
  · rename_i h
    simpa using h

/-- Claim C6: plane update with no attached CRTC or no bound framebuffer is
a silent no-op performing zero DMA calls; otherwise the in-flight transfer
is terminated first, and a failed descriptor construction abandons the
update with nothing submitted, leaving only the termination performed. -/
theorem plane_atomic_update_spec (st : PlaneState) (prepOk : Bool) :
    ((st.hasCrtc = false ∨ st.fb = none) →
      digilent_hdmi_plane_atomic_update st prepOk = []) ∧
    (st.hasCrtc = true → st.fb ≠ none →
      (digilent_hdmi_plane_atomic_update st prepOk).head? =
        some DmaCall.terminate ∧
      (prepOk = false →
        digilent_hdmi_plane_atomic_update st prepOk = [DmaCall.terminate]) ∧
      (prepOk = true →
        digilent_hdmi_plane_atomic_update st prepOk =
          [DmaCall.terminate, DmaCall.submit, DmaCall.issuePending])) := by
  obtain ⟨hc, fb, g⟩ := st
  cases hc <;> cases fb <;> cases prepOk <;>
    simp [digilent_hdmi_plane_atomic_update]

/-- Witness for C6: the disabled-plane state really takes the silent no-op
branch of `plane_atomic_update_spec`. -/
theorem plane_atomic_update_spec_witness :
    digilent_hdmi_plane_atomic_update
      { hasCrtc := false, fb := none, geom := ⟨0, 0, 0, 0⟩ } true = [] :=
  (plane_atomic_update_spec
    { hasCrtc := false, fb := none, geom := ⟨0, 0, 0, 0⟩ } true).1 (Or.inl rfl)

/-- Claim C7: two consecutive `digilent_hdmi_crtc_atomic_begin` passes
starting from one pending vblank event signal that event exactly once in
total (never zero, never twice), and the pending slot is left cleared. -/
theorem crtc_atomic_begin_signals_once (e : Nat) :
    (digilent_hdmi_crtc_atomic_begin (some e)).2 ++
      (digilent_hdmi_crtc_atomic_begin
        (digilent_hdmi_crtc_atomic_begin (some e)).1).2 = [e] ∧
    (digilent_hdmi_crtc_atomic_begin
      (digilent_hdmi_crtc_atomic_begin (some e)).1).1 = none := by
  simp [digilent_hdmi_crtc_atomic_begin]

/-- Claim C8: from the initial (disabled) clock state, enabling twice
performs exactly one `clk_prepare_enable` call, and disabling before any
enable performs zero `clk_disable_unprepare` calls and leaves the state
unchanged. -/
theorem encoder_clock_idempotent :
    (digilent_hdmi_encoder_enable
      (digilent_hdmi_encoder_enable initialClockState)).prepareEnableCalls
        = 1 ∧
    digilent_hdmi_encoder_disable initialClockState = initialClockState ∧
    (digilent_hdmi_encoder_disable
      initialClockState).disableUnprepareCalls = 0 := by
  decide

/-- Claim C1 (code evaluation): with both optional handles acquired, the
remove trace releases the I2C adapter, the VTC bridge and the DMA channel
strictly before `drm_atomic_helper_shutdown` runs, so the commit-shutdown
step does not precede the resource releases; the device aggregate is put
last. -/
theorem platform_remove_release_precedes_shutdown :
    digilent_hdmi_platform_remove true true =
      [RemoveEvent.putI2cAdapter, RemoveEvent.putVtcBridge,
       RemoveEvent.releaseDmaChannel, RemoveEvent.atomicShutdown,
       RemoveEvent.putDrmDev] ∧
    (digilent_hdmi_platform_remove true true).head? =
      some RemoveEvent.putI2cAdapter := by
  decide

/-- Claim C2 (counterexample): at stride 100 with pixel size 4 and width
32 (so stride − width·pixel_size = −28 < 0), descriptor construction does
not fail: a full descriptor is produced whose gap field wraps to
2^64 − 28, and the plane update still submits it. -/
theorem prep_desc_negative_gap_not_rejected :
    digilent_hdmi_vdma_prep_interleaved_desc ⟨0, 100, 4⟩ ⟨0, 0, 32, 8⟩ =
      { dir := DmaDir.DMA_MEM_TO_DEV
        src_start := 0
        frame_size := 1
        numf := 8
        src_sgl := true
        src_inc := true
        dst_inc := false
        dst_sgl := false
        sgl0_size := 128
        sgl0_icg := 18446744073709551588 } ∧
    digilent_hdmi_plane_atomic_update
      { hasCrtc := true, fb := some ⟨0, 100, 4⟩, geom := ⟨0, 0, 32, 8⟩ }
      true =
      [DmaCall.terminate, DmaCall.submit, DmaCall.issuePending] := by
  constructor
  · rfl
  · rfl

/-- Claim C3 (counterexample): a mode with pixel clock 2000 kHz and
htotal·vtotal = 1000 has refresh rate 2000 Hz, and the settle delay the
driver computes for it is 0 ms, not the claimed minimum of 1 ms. -/
theorem settle_ms_zero_above_1000hz :
    crtc_enable_vrefresh ⟨2000, 0, 0, 40, 25, 0⟩ = 2000 ∧
    crtc_enable_settle_ms ⟨2000, 0, 0, 40, 25, 0⟩ = 0 := by
  constructor
  · rfl
  · rfl

/-- Claim C3 (amended): the settle delay is `1000 / vrefresh` milliseconds
in truncating integer division, with
`vrefresh = (clock·1000) / (vtotal·htotal)`; it is at least 1 ms exactly
when the refresh rate is at most 1000 Hz, and truncates to 0 ms for
refresh rates above 1000 Hz — no 1 ms floor is applied. -/
theorem crtc_enable_settle_spec (m : DisplayMode)
    (h1 : 1 ≤ crtc_enable_vrefresh m) :
    crtc_enable_vrefresh m = m.clock * 1000 / (m.vtotal * m.htotal) ∧
    crtc_enable_settle_ms m = 1000 / crtc_enable_vrefresh m ∧
    (crtc_enable_vrefresh m ≤ 1000 → 1 ≤ crtc_enable_settle_ms m) ∧
    (1000 < crtc_enable_vrefresh m → crtc_enable_settle_ms m = 0) := by
  refine ⟨rfl, by simp [crtc_enable_settle_ms], ?_, ?_⟩
  · intro hle
    have := (Nat.one_le_div_iff (Nat.lt_of_lt_of_le Nat.zero_lt_one h1)).mpr hle
    simpa [crtc_enable_settle_ms] using this
  · intro hgt
    have := Nat.div_eq_of_lt hgt
    simpa [crtc_enable_settle_ms] using this

/-- Witness for C3 (amended): a 1080p60-style mode (148500 kHz clock,
2200 × 1125 total) has refresh rate 60 Hz and settle delay 16 ms ≥ 1. -/
theorem crtc_enable_settle_spec_witness :
    1 ≤ crtc_enable_vrefresh ⟨148500, 1920, 1080, 2200, 1125, 0⟩ ∧
    (crtc_enable_vrefresh ⟨148500, 1920, 1080, 2200, 1125, 0⟩ =
        148500 * 1000 / (1125 * 2200) ∧
      crtc_enable_settle_ms ⟨148500, 1920, 1080, 2200, 1125, 0⟩ =
        1000 / crtc_enable_vrefresh ⟨148500, 1920, 1080, 2200, 1125, 0⟩ ∧
      (crtc_enable_vrefresh ⟨148500, 1920, 1080, 2200, 1125, 0⟩ ≤ 1000 →
        1 ≤ crtc_enable_settle_ms ⟨148500, 1920, 1080, 2200, 1125, 0⟩) ∧
      (1000 < crtc_enable_vrefresh ⟨148500, 1920, 1080, 2200, 1125, 0⟩ →
        crtc_enable_settle_ms ⟨148500, 1920, 1080, 2200, 1125, 0⟩ = 0)) :=
  ⟨by decide, crtc_enable_settle_spec ⟨148500, 1920, 1080, 2200, 1125, 0⟩
    (by decide)⟩

/-- Claim C4: within the non-wrapping range of the driver's arithmetic
(row byte count at most the stride, stride and the 32-bit intermediates
`crtc_x·cpp + crtc_y·pitch` below 2^32, start address below 2^64), the
descriptor builder is a pure function producing direction
memory-to-device, source start address base + y·stride + x·pixel_size,
exactly one chunk per row of width·pixel_size bytes, repeat count height,
and gap stride − width·pixel_size; identical inputs yield identical
descriptors. -/
theorem prep_interleaved_desc_spec (fb : Framebuffer) (g : PlaneGeometry)
    (hrow : g.crtc_w * fb.cpp ≤ fb.pitch)
    (hpitch : fb.pitch < U32_MOD)
    (hoff : g.crtc_x * fb.cpp + g.crtc_y * fb.pitch < U32_MOD)
    (haddr : fb.paddr + (g.crtc_y * fb.pitch + g.crtc_x * fb.cpp) < SIZE_MOD) :
    digilent_hdmi_vdma_prep_interleaved_desc fb g =
      { dir := DmaDir.DMA_MEM_TO_DEV
        src_start := fb.paddr + g.crtc_y * fb.pitch + g.crtc_x * fb.cpp
        frame_size := 1
        numf := g.crtc_h
        src_sgl := true
        src_inc := true
        dst_inc := false
        dst_sgl := false
        sgl0_size := g.crtc_w * fb.cpp
        sgl0_icg := fb.pitch - g.crtc_w * fb.cpp } ∧
    (∀ fb2 g2, fb2 = fb → g2 = g →
      digilent_hdmi_vdma_prep_interleaved_desc fb2 g2 =
        digilent_hdmi_vdma_prep_interleaved_desc fb g) := by
  constructor
  · have hUS : U32_MOD ≤ SIZE_MOD := by decide
    have e1 : (g.crtc_x * fb.cpp + g.crtc_y * fb.pitch) % U32_MOD =
        g.crtc_x * fb.cpp + g.crtc_y * fb.pitch :=
      Nat.mod_eq_of_lt (by omega)
    have e2 : (g.crtc_w * fb.cpp) % U32_MOD = g.crtc_w * fb.cpp :=
      Nat.mod_eq_of_lt (by omega)
    have e3 : (fb.paddr + (g.crtc_x * fb.cpp + g.crtc_y * fb.pitch)) %
        SIZE_MOD = fb.paddr + g.crtc_y * fb.pitch + g.crtc_x * fb.cpp := by
      rw [Nat.mod_eq_of_lt (by omega)]
      omega
    have e5 : (fb.pitch + (SIZE_MOD - g.crtc_w * fb.cpp)) % SIZE_MOD =
        fb.pitch - g.crtc_w * fb.cpp := by
      have e4 : fb.pitch + (SIZE_MOD - g.crtc_w * fb.cpp) =
          (fb.pitch - g.crtc_w * fb.cpp) + SIZE_MOD := by omega
      rw [e4, Nat.add_mod_right, Nat.mod_eq_of_lt (by omega)]
    simp only [digilent_hdmi_vdma_prep_interleaved_desc, e1, e2, e3, e5]
  · intro fb2 g2 h2 h3
    rw [h2, h3]

/-- Witness for C4: at base 4096, stride 7680, 4 bytes per pixel, crop
(10, 20) and size 1920 × 1080, the hypotheses hold and the descriptor
fields come out as specified. -/
theorem prep_interleaved_desc_spec_witness :
    (1920 * 4 ≤ 7680 ∧ 7680 < U32_MOD ∧
      10 * 4 + 20 * 7680 < U32_MOD ∧
      4096 + (20 * 7680 + 10 * 4) < SIZE_MOD) ∧
    (digilent_hdmi_vdma_prep_interleaved_desc ⟨4096, 7680, 4⟩
        ⟨10, 20, 1920, 1080⟩ =
      { dir := DmaDir.DMA_MEM_TO_DEV
        src_start := 4096 + 20 * 7680 + 10 * 4
        frame_size := 1
        numf := 1080
        src_sgl := true
        src_inc := true
        dst_inc := false
        dst_sgl := false
        sgl0_size := 1920 * 4
        sgl0_icg := 7680 - 1920 * 4 } ∧
    (∀ fb2 g2, fb2 = (⟨4096, 7680, 4⟩ : Framebuffer) →
        g2 = (⟨10, 20, 1920, 1080⟩ : PlaneGeometry) →
      digilent_hdmi_vdma_prep_interleaved_desc fb2 g2 =
        digilent_hdmi_vdma_prep_interleaved_desc ⟨4096, 7680, 4⟩
          ⟨10, 20, 1920, 1080⟩)) :=
  ⟨⟨by decide, by decide, by decide, by decide⟩,
    prep_interleaved_desc_spec ⟨4096, 7680, 4⟩ ⟨10, 20, 1920, 1080⟩
      (by decide) (by decide) (by decide) (by decide)⟩

/-- Claim C2 (amended): the descriptor builder performs no geometry
validation and never fails; the row byte count width·pixel_size is
computed in 32-bit unsigned arithmetic and the gap field is an unsigned
64-bit `size_t` subtraction, so for row byte counts below 2^32 (stride is
a 32-bit `pitches[0]`) the gap equals stride − width·pixel_size (hence
≥ 0) when the stride covers the row, and wraps to
stride + 2^64 − width·pixel_size when the logical gap would be negative,
instead of being rejected. -/
theorem prep_desc_gap_unsigned_wrap (fb : Framebuffer) (g : PlaneGeometry)
    (hcpp : g.crtc_w * fb.cpp < U32_MOD)
    (hpitch : fb.pitch < U32_MOD) :
    (g.crtc_w * fb.cpp ≤ fb.pitch →
      (digilent_hdmi_vdma_prep_interleaved_desc fb g).sgl0_icg =
        fb.pitch - g.crtc_w * fb.cpp) ∧
    (fb.pitch < g.crtc_w * fb.cpp →
      (digilent_hdmi_vdma_prep_interleaved_desc fb g).sgl0_icg =
        fb.pitch + SIZE_MOD - g.crtc_w * fb.cpp) := by
  have hUS : U32_MOD ≤ SIZE_MOD := by decide
  have e2 : (g.crtc_w * fb.cpp) % U32_MOD = g.crtc_w * fb.cpp :=
    Nat.mod_eq_of_lt hcpp
  constructor
  · intro hle
    have e4 : fb.pitch + (SIZE_MOD - g.crtc_w * fb.cpp) =
        (fb.pitch - g.crtc_w * fb.cpp) + SIZE_MOD := by omega
    simp only [digilent_hdmi_vdma_prep_interleaved_desc, e2, e4,
      Nat.add_mod_right]
    exact Nat.mod_eq_of_lt (by omega)
  · intro hlt
    simp only [digilent_hdmi_vdma_prep_interleaved_desc, e2]
    rw [Nat.mod_eq_of_lt (by omega)]
    omega

/-- Witness for C2 (amended): at stride 100, pixel size 4, width 32 the
hypotheses hold, the wrap case applies, and the gap field is
100 + 2^64 − 128. -/
theorem prep_desc_gap_unsigned_wrap_witness :
    (32 * 4 < U32_MOD ∧ 100 < U32_MOD) ∧
    ((32 * 4 ≤ 100 →
      (digilent_hdmi_vdma_prep_interleaved_desc ⟨0, 100, 4⟩
        ⟨0, 0, 32, 8⟩).sgl0_icg = 100 - 32 * 4) ∧
    (100 < 32 * 4 →
      (digilent_hdmi_vdma_prep_interleaved_desc ⟨0, 100, 4⟩
        ⟨0, 0, 32, 8⟩).sgl0_icg = 100 + SIZE_MOD - 32 * 4)) :=
  ⟨⟨by decide, by decide⟩,
    prep_desc_gap_unsigned_wrap ⟨0, 100, 4⟩ ⟨0, 0, 32, 8⟩
      (by decide) (by decide)⟩

/-- Claim C10: in `digilent_hdmi_parse_of`, a configured-but-missing EDID
I2C adapter returns `-EPROBE_DEFER` after releasing the VTC bridge (if
acquired) and then the DMA channel, in that order; a configured-but-missing
VTC bridge returns `-EPROBE_DEFER` after releasing only the DMA channel;
wholly absent optional properties do not abort acquisition; and a DMA
request failure unwinds without releasing anything not yet acquired. -/
theorem parse_of_unwind_spec (cfg : OfConfig) :
    (cfg.clkErr = none → cfg.dmaErr = none →
      cfg.i2cProp = true → cfg.i2cFound = false →
      (cfg.vtcProp = true → cfg.vtcFound = true) →
      digilent_hdmi_parse_of cfg =
        { result := Except.error EPROBE_DEFER
          releases :=
            (if cfg.vtcProp then [RelEvent.putVtcBridge] else []) ++
            [RelEvent.releaseDma] }) ∧
    (cfg.clkErr = none → cfg.dmaErr = none →
      cfg.vtcProp = true → cfg.vtcFound = false →
      digilent_hdmi_parse_of cfg =
        { result := Except.error EPROBE_DEFER
          releases := [RelEvent.releaseDma] }) ∧
    (cfg.clkErr = none → cfg.dmaErr = none →
      cfg.vtcProp = false → cfg.i2cProp = false →
      ∃ s, digilent_hdmi_parse_of cfg =
          { result := Except.ok s, releases := [] } ∧
        s.vtcAcquired = false ∧ s.i2cAcquired = false) ∧
    (∀ e, cfg.clkErr = none → cfg.dmaErr = some e →
      digilent_hdmi_parse_of cfg =
        { result := Except.error e, releases := [] }) := by
  obtain ⟨ce, de, vp, vf, ip, if_, p1, p2, p3, p4, p5⟩ := cfg
  cases ce <;> cases de <;> cases vp <;> cases vf <;> cases ip <;>
    cases if_ <;> simp [digilent_hdmi_parse_of]

/-- Witness for C10: with clock and DMA acquired, the VTC bridge
configured and found, and the EDID I2C adapter configured but missing,
`digilent_hdmi_parse_of` returns `-EPROBE_DEFER` and releases the bridge
then the DMA channel. -/
theorem parse_of_unwind_spec_witness :
    ((none : Option Int) = none ∧ (none : Option Int) = none ∧
      true = true ∧ false = false ∧ (true = true → true = true)) ∧
    digilent_hdmi_parse_of
      { clkErr := none, dmaErr := none, vtcProp := true, vtcFound := true,
        i2cProp := true, i2cFound := false, fmaxProp := none,
        hmaxProp := none, vmaxProp := none, hprefProp := none,
        vprefProp := none } =
      { result := Except.error EPROBE_DEFER
        releases := [RelEvent.putVtcBridge, RelEvent.releaseDma] } := by
  constructor
  · exact ⟨rfl, rfl, rfl, rfl, fun h => h⟩
  · have h := (parse_of_unwind_spec
      { clkErr := none, dmaErr := none, vtcProp := true, vtcFound := true,
        i2cProp := true, i2cFound := false, fmaxProp := none,
        hmaxProp := none, vmaxProp := none, hprefProp := none,
        vprefProp := none }).1 rfl rfl rfl rfl (fun _ => rfl)
    simpa using h

/-- Helper: marking a preferred resolution in a fallback list synthesized
from a pair list not containing that resolution leaves no entry marked. -/
theorem marked_countP_zero (hp vp : Nat) :
    ∀ L : List (Nat × Nat), (hp, vp) ∉ L →
    (drm_set_preferred_mode
        (L.map fun p =>
          ({ hdisplay := p.1, vdisplay := p.2, preferred := false } :
            FallbackMode)) hp vp).countP
      (fun m => m.preferred) = 0 := by
  intro L
  induction L with
  | nil => intro _; rfl
  | cons b t ih =>
    intro hnm
    have hb : ¬(b = (hp, vp)) := fun h => hnm (h ▸ List.mem_cons_self b t)
    have ht : (hp, vp) ∉ t := fun h => hnm (List.mem_cons_of_mem b h)
    have hcond : ¬(b.1 = hp ∧ b.2 = vp) := by
      intro h
      exact hb (Prod.ext h.1 h.2)
    simp only [drm_set_preferred_mode, List.map_cons, List.countP_cons] at *
    rw [ih ht]
    simp [hcond]

/-- Helper: marking a preferred resolution in a fallback list synthesized
from a duplicate-free pair list containing that resolution marks exactly
one entry. -/
theorem marked_countP_one (hp vp : Nat) :
    ∀ L : List (Nat × Nat), L.Nodup → (hp, vp) ∈ L →
    (drm_set_preferred_mode
        (L.map fun p =>
          ({ hdisplay := p.1, vdisplay := p.2, preferred := false } :
            FallbackMode)) hp vp).countP
      (fun m => m.preferred) = 1 := by
  intro L
  induction L with
  | nil => intro _ hm; cases hm
  | cons b t ih =>
    intro hn hm
    rcases List.mem_cons.mp hm with hb | hmt
    · have hnott : (hp, vp) ∉ t := by
        rw [← hb] at hn
        exact (List.nodup_cons.mp hn).1
      have hz := marked_countP_zero hp vp t hnott
      simp only [drm_set_preferred_mode, List.map_cons,
        List.countP_cons] at *
      have hcond : b.1 = hp ∧ b.2 = vp := by
        rw [← hb]
        exact ⟨rfl, rfl⟩
      rw [hz]
      simp [hcond]
    · have hbt : b ∉ t := (List.nodup_cons.mp hn).1
      have hb : ¬(b = (hp, vp)) := fun h => hbt (h ▸ hmt)
      have hcond : ¬(b.1 = hp ∧ b.2 = vp) := by
        intro h
        exact hb (Prod.ext h.1 h.2)
      have := ih (List.nodup_cons.mp hn).2 hmt
      simp only [drm_set_preferred_mode, List.map_cons,
        List.countP_cons] at *
      rw [this]
      simp [hcond]

/-- Claim C9: with no capability-discovery channel configured, `get_modes`
returns the fallback set synthesized from the `(max-h, max-v)` ceiling,
with exactly one entry marked preferred, that entry matching
`(preferred-h, preferred-v)` and present in the list, and with the
resolutions of the list exactly those of the fallback set. -/
theorem get_modes_noedid_spec (limits : HdmiLimits)
    (hmem : (limits.hpref, limits.vpref) ∈
      noedidModeTable.filter fun p =>
        p.1 ≤ limits.hmax && p.2 ≤ limits.vmax) :
    (digilent_hdmi_connector_get_modes false none limits).countP
        (fun m => m.preferred) = 1 ∧
    (∀ m ∈ digilent_hdmi_connector_get_modes false none limits,
      m.preferred = true →
        m.hdisplay = limits.hpref ∧ m.vdisplay = limits.vpref) ∧
    ({ hdisplay := limits.hpref, vdisplay := limits.vpref,
        preferred := true } : FallbackMode) ∈
      digilent_hdmi_connector_get_modes false none limits ∧
    (digilent_hdmi_connector_get_modes false none limits).map
        (fun m => (m.hdisplay, m.vdisplay)) =
      (drm_add_modes_noedid limits.hmax limits.vmax).map
        (fun m => (m.hdisplay, m.vdisplay)) := by
  have hnodup : (noedidModeTable.filter fun p =>
      p.1 ≤ limits.hmax && p.2 ≤ limits.vmax).Nodup :=
    List.Nodup.filter _ (by decide)
  refine ⟨?_, ?_, ?_, ?_⟩
  · show (drm_set_preferred_mode
        (drm_add_modes_noedid limits.hmax limits.vmax) limits.hpref
        limits.vpref).countP (fun m => m.preferred) = 1
    unfold drm_add_modes_noedid
    exact marked_countP_one limits.hpref limits.vpref _ hnodup hmem
  · intro m hm hpref
    have hm2 : m ∈ drm_set_preferred_mode
        (drm_add_modes_noedid limits.hmax limits.vmax) limits.hpref
        limits.vpref := hm
    unfold drm_set_preferred_mode at hm2
    rcases List.mem_map.mp hm2 with ⟨m1, hm1, hmk⟩
    by_cases h : m1.hdisplay = limits.hpref ∧ m1.vdisplay = limits.vpref
    · rw [← hmk]
      simp [h]
    · exfalso
      rw [← hmk] at hpref
      simp only [h, if_false] at hpref
      unfold drm_add_modes_noedid at hm1
      rcases List.mem_map.mp hm1 with ⟨p, _, hp2⟩
      rw [← hp2] at hpref
      simp at hpref
  · show _ ∈ drm_set_preferred_mode
        (drm_add_modes_noedid limits.hmax limits.vmax) limits.hpref
        limits.vpref
    unfold drm_set_preferred_mode drm_add_modes_noedid
    refine List.mem_map.mpr
      ⟨{ hdisplay := limits.hpref, vdisplay := limits.vpref,
         preferred := false }, ?_, by simp⟩
    exact List.mem_map.mpr ⟨(limits.hpref, limits.vpref), hmem, rfl⟩
  · show (drm_set_preferred_mode
        (drm_add_modes_noedid limits.hmax limits.vmax) limits.hpref
        limits.vpref).map (fun m => (m.hdisplay, m.vdisplay)) = _
    unfold drm_set_preferred_mode
    rw [List.map_map]
    apply List.map_congr_left
    intro m _
    by_cases h : m.hdisplay = limits.hpref ∧ m.vdisplay = limits.vpref
    · simp [Function.comp, h]
    · simp [Function.comp, h]

/-- Witness for C9: with the built-in default limits (preferred 1280 × 720,
ceiling 1920 × 1080) the preferred resolution is in the filtered fallback
table and the conclusion of `get_modes_noedid_spec` holds. -/
theorem get_modes_noedid_spec_witness :
    ((1280, 720) ∈ noedidModeTable.filter fun p =>
      decide (p.1 ≤ 1920) && decide (p.2 ≤ 1080)) ∧
    ((digilent_hdmi_connector_get_modes false none
        ⟨150000, 1920, 1080, 1280, 720⟩).countP
        (fun m => m.preferred) = 1 ∧
    (∀ m ∈ digilent_hdmi_connector_get_modes false none
        ⟨150000, 1920, 1080, 1280, 720⟩,
      m.preferred = true → m.hdisplay = 1280 ∧ m.vdisplay = 720) ∧
    ({ hdisplay := 1280, vdisplay := 720, preferred := true } :
        FallbackMode) ∈
      digilent_hdmi_connector_get_modes false none
        ⟨150000, 1920, 1080, 1280, 720⟩ ∧
    (digilent_hdmi_connector_get_modes false none
        ⟨150000, 1920, 1080, 1280, 720⟩).map
        (fun m => (m.hdisplay, m.vdisplay)) =
      (drm_add_modes_noedid 1920 1080).map
        (fun m => (m.hdisplay, m.vdisplay))) :=
  ⟨by decide, get_modes_noedid_spec ⟨150000, 1920, 1080, 1280, 720⟩
    (by decide)⟩

end DigilentHdmi
